import Mathlib

/-!
Verification of the `mcpid` particle-data lookup library
(`src/mcpid/lookup.py`) against its natural-language specification.

The development shallowly embeds the two components of the source:

* `frac` (lookup.py lines 14-42): the fraction-string parser, built on
  Python's `fractions.Fraction` string constructor (modelled here by
  `fractionOfString`, following CPython's `_RATIONAL_FORMAT` regular
  expression and the subsequent numeric evaluation) and on the
  `try/except ValueError` wrapper of the source.

* `PdgRecords.properties` (lookup.py lines 61-126): the query engine over
  the loaded pandas DataFrame.  The DataFrame is embedded as a list of
  rows keyed by an integer `id` with a shared column-name list; the
  pandas/numpy operations used by the source (`np.unique` with
  `return_inverse`, `.loc` row selection, column selection, `np.any`
  truthiness, `DataFrame.to_records`, `recfunctions.drop_fields`, and
  fancy indexing by the inverse index array) are each embedded as a
  Lean function with the behaviour of the library call.

Machine floats only appear in `frac`'s default mode as
`float(Fraction(...))`; the values relevant to the specification
(1/2, 0, -1) are exactly representable, so the float-mode result is
carried as the exact rational it rounds from, tagged `FracOut.floatVal`.
-/

/-- Python exception values that the embedded code can raise.
`keyErrorIds` is the pandas `KeyError` listing index labels missing from
`.loc`; `keyErrorCols` the `KeyError` for a missing column. -/
inductive PyErr where
  | valueError
  | zeroDivisionError
  | keyErrorIds (ids : List Int)
  | keyErrorCols (cs : List String)
deriving DecidableEq, Repr

/-- Python `\s` (ASCII whitespace), as used by `fractions._RATIONAL_FORMAT`. -/
def pyIsSpace (c : Char) : Bool :=
  c = ' ' || c = '\t' || c = '\n' || c = '\r' || c = '\x0b' || c = '\x0c'

/-- Value of a list of decimal digit characters. -/
def digitsVal (ds : List Char) : Nat :=
  ds.foldl (fun a c => 10 * a + (c.toNat - 48)) 0

/-- Greedy match of the regex tail `(_\d+)*`: groups of an underscore
followed by digits.  Returns the digits collected (underscores removed)
and the unconsumed remainder.  Structural recursion on a fuel argument
(each step consumes an underscore and at least one digit, so any fuel of
at least the list length is never exhausted). -/
def uGroupsF : Nat → List Char → List Char × List Char
  | 0, l => ([], l)
  | Nat.succ n, l =>
      match l with
      | '_' :: rest =>
          let ds := rest.takeWhile (·.isDigit)
          if ds.isEmpty then ([], '_' :: rest)
          else
            let p := uGroupsF n (rest.dropWhile (·.isDigit))
            (ds ++ p.1, p.2)
      | l2 => ([], l2)

/-- `uGroupsF` with sufficient fuel. -/
def uGroups (l : List Char) : List Char × List Char := uGroupsF l.length l

/-- Match of `\d+(_\d+)*` (a nonempty digit group, with optional
single underscores between digit groups), as in the numerator,
denominator, decimal and exponent groups of `_RATIONAL_FORMAT`.
Fails (`none`) if the input does not start with a digit. -/
def parseUDigits (l : List Char) : Option (List Char × List Char) :=
  let ds := l.takeWhile (·.isDigit)
  if ds.isEmpty then none
  else
    let p := uGroups (l.dropWhile (·.isDigit))
    some (ds ++ p.1, p.2)

instance exceptDecidableEq {e a : Type} [DecidableEq e] [DecidableEq a] :
    DecidableEq (Except e a) := fun x y =>
  match x, y with
  | .ok v, .ok w =>
      if h : v = w then isTrue (by rw [h]) else isFalse (fun hc => by cases hc; exact h rfl)
  | .error v, .error w =>
      if h : v = w then isTrue (by rw [h]) else isFalse (fun hc => by cases hc; exact h rfl)
  | .ok _, .error _ => isFalse (fun hc => by cases hc)
  | .error _, .ok _ => isFalse (fun hc => by cases hc)

/-- The lookahead `(?=\d|\.\d)` of `_RATIONAL_FORMAT`. -/
def lookaheadOk : List Char → Bool
  | [] => false
  | c :: rest =>
      c.isDigit ||
        (c = '.' && (match rest with
          | d :: _ => d.isDigit
          | [] => false))

/-- The string constructor of Python's `fractions.Fraction`: matches the
input against `_RATIONAL_FORMAT` (optional whitespace, optional sign,
either `num / denom` with optional spaces around the slash, or a decimal
form `num[.dec][E[sign]exp]`), evaluates the matched groups, and raises
`ValueError` on no match or `ZeroDivisionError` on a zero denominator. -/
def fractionOfString (s : String) : Except PyErr ℚ :=
  let l0 := (s.toList).dropWhile pyIsSpace
  let sgn : Bool × List Char :=
    match l0 with
    | '-' :: r => (true, r)
    | '+' :: r => (false, r)
    | r => (false, r)
  let neg := sgn.1
  let l1 := sgn.2
  if lookaheadOk l1 = false then .error .valueError
  else
    let numP : List Char × List Char :=
      match parseUDigits l1 with
      | some p => p
      | none => ([], l1)
    let num : Nat := digitsVal numP.1
    let l2 := numP.2
    match (l2.dropWhile pyIsSpace : List Char) with
    | '/' :: afterSlash =>
        -- denominator branch: `\s*/\s*(\d+(_\d+)*)`, then `\s*\Z`
        match parseUDigits (afterSlash.dropWhile pyIsSpace) with
        | none => .error .valueError
        | some denP =>
            if (denP.2.dropWhile pyIsSpace).isEmpty then
              let den : Nat := digitsVal denP.1
              if den = 0 then .error .zeroDivisionError
              else
                .ok (mkRat (if neg then -(num : Int) else (num : Int)) den)
            else .error .valueError
    | _ =>
        -- decimal branch: `(\.(\d*|\d+(_\d+)*))?(E[-+]?\d+(_\d+)*)?\s*\Z`,
        -- matched directly after the numerator (no space before the dot)
        let decP : List Char × List Char :=
          match l2 with
          | '.' :: r =>
              (match parseUDigits r with
               | some p => p
               | none => ([], r))
          | _ => ([], l2)
        let decDs := decP.1
        let l3 := decP.2
        let expP : Option (Bool × List Char × List Char) :=
          match l3 with
          | c :: r =>
              if c = 'e' || c = 'E' then
                let es : Bool × List Char :=
                  match r with
                  | '-' :: r2 => (true, r2)
                  | '+' :: r2 => (false, r2)
                  | r2 => (false, r2)
                match parseUDigits es.2 with
                | some p => some (es.1, p.1, p.2)
                | none => none
              else none
          | [] => none
        let afterExp : List Char :=
          match expP with
          | some e => e.2.2
          | none => l3
        if (afterExp.dropWhile pyIsSpace).isEmpty then
          -- integer numerator/denominator as in CPython: scale by the
          -- decimal part, then by the exponent, then apply the sign
          let scale : Nat := 10 ^ decDs.length
          let numerator : Nat := num * scale + digitsVal decDs
          let denominator : Nat := scale
          let scaled : Nat × Nat :=
            match expP with
            | some e =>
                if e.1 then (numerator, denominator * 10 ^ digitsVal e.2.1)
                else (numerator * 10 ^ digitsVal e.2.1, denominator)
            | none => (numerator, denominator)
          .ok (mkRat (if neg then -(scaled.1 : Int) else (scaled.1 : Int)) scaled.2)
        else .error .valueError

/-- Result of `frac`: a float-mode number (`float(Fraction(s))`, carried
as the exact rational it is rounded from), an exact `Fraction`, `np.nan`,
or Python's implicit `None` (a function falling off the end of its body). -/
inductive FracOut where
  | floatVal (q : ℚ)
  | fracVal (q : ℚ)
  | nan
  | pyNone
deriving DecidableEq, Repr

/-- `frac` (lookup.py lines 14-42): applies `float ∘ Fraction` (default
mode) or `Fraction` (object mode) to the input, catching only
`ValueError`: on that error an empty string becomes `cast_frac("0/1")`,
`"?"` becomes `np.nan`, and any other input falls off the function body,
returning Python `None`.  Other exceptions propagate. -/
def frac (numStr : String) (objMode : Bool) : Except PyErr FracOut :=
  let wrap : ℚ → FracOut := fun q => if objMode then .fracVal q else .floatVal q
  match fractionOfString numStr with
  | .ok q => .ok (wrap q)
  | .error .valueError =>
      if numStr = "" then
        match fractionOfString "0/1" with
        | .ok q => .ok (wrap q)
        | .error e => .error e
      else if numStr = "?" then .ok .nan
      else .ok .pyNone
  | .error e => .error e

/-- A cell of the loaded table: pandas stores strings, numbers parsed by
`frac` (rationals in object mode, floats otherwise — carried exactly),
integers, booleans (the `pythia` flag column), `NaN` markers, and `None`. -/
inductive Value where
  | str (s : String)
  | rat (q : ℚ)
  | int (n : Int)
  | bool (b : Bool)
  | nan
  | none
deriving DecidableEq, Repr

/-- Python truthiness of a cell, as tested elementwise by `np.any` on an
object column.  `NaN` is truthy in Python. -/
def Value.truthy : Value → Bool
  | .str s => s ≠ ""
  | .rat q => q ≠ 0
  | .int n => n ≠ 0
  | .bool b => b
  | .nan => true
  | .none => false

/-- The pandas DataFrame produced by the loader: column labels plus rows
keyed by the integer `id` index (`lookup_table.set_index("id")`). -/
structure DataFrame where
  cols : List String
  rows : List (Int × List Value)
deriving DecidableEq, Repr

/-- The row of the table whose index label is `i` (the table's index is
unique by the loader's construction, so the first match is the row). -/
def DataFrame.findRow (df : DataFrame) (i : Int) : Option (List Value) :=
  (df.rows.find? (fun r => r.fst = i)).map Prod.snd

/-- The cell of the record keyed `c` in column `p` (missing row or column
gives a placeholder; the theorems only use it where both exist). -/
def DataFrame.cell (df : DataFrame) (c : Int) (p : String) : Value :=
  ((df.findRow c).getD []).getD (df.cols.indexOf p) Value.none

/-- pandas `df.loc[ids]` on a unique index: rows selected in the order of
`ids`; raises `KeyError` listing the labels absent from the index. -/
def DataFrame.loc (df : DataFrame) (ids : List Int) : Except PyErr DataFrame :=
  let missing := ids.filter (fun i => (df.findRow i).isNone)
  if missing.isEmpty then
    .ok ⟨df.cols, ids.map (fun i => (i, (df.findRow i).getD []))⟩
  else .error (.keyErrorIds missing)

/-- pandas `df[c]` for a single column label: the column's values, or
`KeyError` if the label is absent. -/
def DataFrame.getCol (df : DataFrame) (c : String) : Except PyErr (List Value) :=
  if df.cols.contains c then
    .ok (df.rows.map (fun r => r.snd.getD (df.cols.indexOf c) Value.none))
  else .error (.keyErrorCols [c])

/-- pandas `df[props]` for a list of labels: one column per entry of
`props`, in that order (duplicates permitted); `KeyError` if any label is
absent. -/
def DataFrame.selectCols (df : DataFrame) (props : List String) : Except PyErr DataFrame :=
  if props.all (fun p => df.cols.contains p) then
    .ok ⟨props,
         df.rows.map (fun r =>
           (r.fst, props.map (fun p => r.snd.getD (df.cols.indexOf p) Value.none)))⟩
  else .error (.keyErrorCols (props.filter (fun p => !df.cols.contains p)))

/-- A numpy structured/record array: field names and one value list per
record. -/
structure RecArray where
  fields : List String
  recs : List (List Value)
deriving DecidableEq, Repr

/-- pandas `df.to_records()`: prepends the index (named `"id"` here, from
`set_index("id")`) as a field; numpy rejects a dtype with a repeated
field name with `ValueError` (`field occurs more than once`). -/
def DataFrame.toRecords (df : DataFrame) : Except PyErr RecArray :=
  let names := "id" :: df.cols
  if names.Nodup then
    .ok ⟨names, df.rows.map (fun r => Value.int r.fst :: r.snd)⟩
  else .error .valueError

/-- `numpy.lib.recfunctions.drop_fields`: removes the named field and its
column from every record. -/
def RecArray.dropField (ra : RecArray) (f : String) : RecArray :=
  ⟨ra.fields.filter (fun n => n ≠ f),
   ra.recs.map (fun vs => ((ra.fields.zip vs).filter (fun q => q.fst ≠ f)).map Prod.snd)⟩

/-- numpy fancy indexing `ra[idxs]`: one record per entry of `idxs`
(always in range where used: the inverse indices of `np.unique`). -/
def RecArray.reindex (ra : RecArray) (idxs : List Nat) : RecArray :=
  ⟨ra.fields, idxs.map (fun i => ra.recs.getD i [])⟩

/-- Ascending insertion of an integer into a sorted list. -/
def insSorted (x : Int) : List Int → List Int
  | [] => [x]
  | y :: ys => if x ≤ y then x :: y :: ys else y :: insSorted x ys

/-- Ascending insertion sort. -/
def sortInts (l : List Int) : List Int := l.foldr insSorted []

/-- `np.unique(xs, return_inverse=True)`: the sorted list of distinct
values, and for each input position the index of its value in that
sorted list. -/
def npUnique (xs : List Int) : List Int × List Nat :=
  let u := sortInts xs.dedup
  (u, xs.map (fun x => u.indexOf x))

/-- The distinguished property set of lookup.py line 110: the fields a
Pythia-sourced (fallback) record guarantees. -/
def validPythia : List String := ["name", "charge", "mass", "width"]

/-- The query output: whether the `warnings.warn` call at lookup.py
lines 112-121 executed, and the returned record array. -/
structure QueryOut where
  warned : Bool
  result : RecArray
deriving DecidableEq, Repr

/-- `PdgRecords.properties` (lookup.py lines 107-126), with the number of
indexed `.loc` lookups against the table threaded through explicitly
(incremented once at each of the two `.loc` call sites, lines 109 and
122).  Returns the warning flag, the record array, and that count; any
pandas/numpy exception propagates out of the call. -/
def propertiesRun (tbl : DataFrame) (pdgs : List Int) (props : List String) :
    Except PyErr (QueryOut × Nat) :=
  let pu := npUnique pdgs
  let n1 := 0 + 1
  match tbl.loc pu.1 with
  | .error e => .error e
  | .ok dfPythia =>
      match dfPythia.getCol "pythia" with
      | .error e => .error e
      | .ok pythiaCol =>
          let contains_pythia := pythiaCol.any Value.truthy
          let warned := contains_pythia && !(props.all (fun p => validPythia.contains p))
          let n2 := n1 + 1
          match tbl.loc pu.1 with
          | .error e => .error e
          | .ok dfData =>
              match dfData.selectCols props with
              | .error e => .error e
              | .ok uniqDf =>
                  match uniqDf.toRecords with
                  | .error e => .error e
                  | .ok uniqData =>
                      let dropped := uniqData.dropField "id"
                      let data := dropped.reindex pu.2
                      .ok (⟨warned, data⟩, n2)

/-- The service object: `self.__lookup` is the only state a `PdgRecords`
instance holds. -/
structure PdgRecords where
  lookup : DataFrame
deriving DecidableEq, Repr

/-- The `properties` method as a state transformer on the service: the
body of the method contains no assignment to `self` or to the table, so
the state passes through unchanged. -/
def PdgRecords.properties (s : PdgRecords) (pdgs : List Int) (props : List String) :
    Except PyErr (QueryOut × Nat) × PdgRecords :=
  (propertiesRun s.lookup pdgs props, s)

/-- A query is well-formed when every queried code is a key of the table,
the table has the `pythia` flag column, and the requested properties are
distinct existing columns other than the index name `id`. -/
def validQuery (tbl : DataFrame) (pdgs : List Int) (props : List String) : Prop :=
  (∀ c ∈ pdgs, ∃ r ∈ tbl.rows, r.fst = c) ∧
  "pythia" ∈ tbl.cols ∧
  (∀ p ∈ props, p ∈ tbl.cols) ∧
  props.Nodup ∧
  "id" ∉ props

/-- A small concrete table with the column schema of the bundled
`_mcpid.csv` resource (a subset of rows suffices for witnesses): the
electron, the photon, and a Pythia-sourced (fallback) entry. -/
def sampleTable : DataFrame :=
  ⟨["name", "charge", "mass", "width", "quarks", "pythia"],
   [(11, [.str "e-", .rat (-1), .rat 1, .rat 0, .str "", .bool false]),
    (22, [.str "gamma", .rat 0, .rat 0, .rat 0, .str "", .bool false]),
    (990, [.str "pomeron", .rat 0, .nan, .nan, .nan, .bool true])]⟩

instance validQueryDecidable (tbl : DataFrame) (pdgs : List Int) (props : List String) :
    Decidable (validQuery tbl pdgs props) := by
  unfold validQuery
  exact inferInstance

theorem mem_insSorted (a x : Int) (l : List Int) :
    a ∈ insSorted x l ↔ a = x ∨ a ∈ l := by
  induction l with
  | nil => simp [insSorted]
  | cons y ys ih =>
      simp only [insSorted]
      split
      · simp
      · simp only [List.mem_cons, ih]
        tauto

theorem mem_sortInts (a : Int) (l : List Int) : a ∈ sortInts l ↔ a ∈ l := by
  induction l with
  | nil => simp [sortInts]
  | cons x xs ih =>
      simp only [sortInts, List.foldr_cons] at *
      rw [mem_insSorted, ih, List.mem_cons]

theorem mem_npUnique (a : Int) (xs : List Int) :
    a ∈ (npUnique xs).1 ↔ a ∈ xs := by
  simp [npUnique, mem_sortInts, List.mem_dedup]

theorem findRow_isSome_of_mem (tbl : DataFrame) (c : Int)
    (h : ∃ r ∈ tbl.rows, r.fst = c) : (tbl.findRow c).isSome = true := by
  rcases h with ⟨r, hr, hrc⟩
  simp only [DataFrame.findRow, Option.isSome_map']
  rw [List.find?_isSome]
  exact ⟨r, hr, by simp [hrc]⟩

theorem loc_ok (tbl : DataFrame) (ids : List Int)
    (h : ∀ c ∈ ids, (tbl.findRow c).isSome = true) :
    tbl.loc ids = .ok ⟨tbl.cols, ids.map (fun i => (i, (tbl.findRow i).getD []))⟩ := by
  have hfil : ids.filter (fun i => (tbl.findRow i).isNone) = [] := by
    rw [List.filter_eq_nil_iff]
    intro a ha
    simp [Option.isNone_iff_eq_none]
    intro hnone
    have := h a ha
    rw [hnone] at this
    simp at this
  simp [DataFrame.loc, hfil]

theorem getCol_ok (df : DataFrame) (c : String) (h : c ∈ df.cols) :
    df.getCol c =
      .ok (df.rows.map (fun r => r.snd.getD (df.cols.indexOf c) Value.none)) := by
  simp [DataFrame.getCol, h]

theorem selectCols_ok (df : DataFrame) (props : List String)
    (h : ∀ p ∈ props, p ∈ df.cols) :
    df.selectCols props =
      .ok ⟨props,
           df.rows.map (fun r =>
             (r.fst, props.map (fun p => r.snd.getD (df.cols.indexOf p) Value.none)))⟩ := by
  simp only [DataFrame.selectCols]
  rw [if_pos]
  rw [List.all_eq_true]
  intro p hp
  simpa using h p hp

theorem toRecords_ok (df : DataFrame) (h : ("id" :: df.cols).Nodup) :
    df.toRecords = .ok ⟨"id" :: df.cols, df.rows.map (fun r => Value.int r.fst :: r.snd)⟩ := by
  simp [DataFrame.toRecords, h]

theorem zipFilter_map (g : String → Value) (props : List String)
    (h : ∀ p ∈ props, p ≠ "id") :
    ((props.zip (props.map g)).filter (fun q => q.fst ≠ "id")).map Prod.snd
      = props.map g := by
  induction props with
  | nil => simp
  | cons p ps ih =>
      have hp : p ≠ "id" := h p (List.mem_cons_self _ _)
      simp only [List.map_cons, List.zip_cons_cons, List.filter_cons]
      rw [if_pos (by simpa using hp)]
      simp only [List.map_cons]
      rw [ih (fun q hq => h q (List.mem_cons_of_mem _ hq))]

theorem map_getD_indexOf (u : List Int) (f : Int → List Value) (c : Int)
    (hc : c ∈ u) (d : List Value) :
    (u.map f).getD (u.indexOf c) d = f c := by
  have hlt : u.indexOf c < u.length := List.indexOf_lt_length.mpr hc
  rw [List.getD_eq_getElem (u.map f) d (by simpa using hlt)]
  rw [List.getElem_map]
  congr 1
  exact List.getElem_indexOf hlt

theorem list_any_map {α β : Type} (f : α → β) (l : List α) (p : β → Bool) :
    (l.map f).any p = l.any (fun a => p (f a)) := by
  induction l with
  | nil => rfl
  | cons x xs ih => simp [List.any_cons, ih]

/-- Master characterization of a well-formed query: the call succeeds
after exactly two indexed lookups, the warning flag is the fallback-flag
test of the code, and the records are the per-input-position projections
of the matched table rows. -/
theorem propertiesRun_eq_of_valid (tbl : DataFrame) (pdgs : List Int) (props : List String)
    (hv : validQuery tbl pdgs props) :
    propertiesRun tbl pdgs props =
      .ok (⟨((npUnique pdgs).1.any (fun c => (tbl.cell c "pythia").truthy))
              && !(props.all (fun p => validPythia.contains p)),
            ⟨props, pdgs.map (fun c => props.map (fun p => tbl.cell c p))⟩⟩, 2) := by
  obtain ⟨h1, h2, h3, h4, h5⟩ := hv
  have humem : ∀ c ∈ (npUnique pdgs).1, c ∈ pdgs := fun c hc =>
    (mem_npUnique c pdgs).mp hc
  have hu : ∀ c ∈ (npUnique pdgs).1, (tbl.findRow c).isSome = true := fun c hc =>
    findRow_isSome_of_mem tbl c (h1 c (humem c hc))
  have hloc := loc_ok tbl (npUnique pdgs).1 hu
  have hcol := getCol_ok
    (⟨tbl.cols, (npUnique pdgs).1.map (fun i => (i, (tbl.findRow i).getD []))⟩ : DataFrame)
    "pythia" h2
  have hsel := selectCols_ok
    (⟨tbl.cols, (npUnique pdgs).1.map (fun i => (i, (tbl.findRow i).getD []))⟩ : DataFrame)
    props h3
  have hnodup : ("id" :: props).Nodup := List.nodup_cons.mpr ⟨h5, h4⟩
  have hrec := toRecords_ok (⟨props,
      ((npUnique pdgs).1.map (fun i => (i, (tbl.findRow i).getD []))).map (fun r =>
        (r.fst, props.map (fun p =>
          r.snd.getD (tbl.cols.indexOf p) Value.none)))⟩ : DataFrame)
    (by simpa using hnodup)
  simp only [propertiesRun, hloc, hcol, hsel, hrec]
  simp only [List.map_map, RecArray.dropField, RecArray.reindex, Function.comp,
    List.filter_cons, npUnique]
  simp only [Prod.mk.injEq, QueryOut.mk.injEq, RecArray.mk.injEq, Except.ok.injEq]
  refine ⟨⟨?_, ?_, ?_⟩, by norm_num⟩
  · rw [list_any_map]
    rfl
  · rw [if_neg (by simp)]
    apply List.filter_eq_self.mpr
    intro a ha
    simp only [decide_eq_true_eq]
    intro hEq
    exact h5 (hEq ▸ ha)
  · apply List.map_congr_left
    intro c hc
    have hcu : c ∈ sortInts pdgs.dedup :=
      (mem_sortInts c pdgs.dedup).mpr (List.mem_dedup.mpr hc)
    simp only [Function.comp]
    simp only [map_getD_indexOf _ _ _ hcu]
    simp only [Function.comp_apply]
    rw [List.zip_cons_cons, List.filter_cons]
    rw [if_neg (by simp)]
    exact zipFilter_map _ props (fun p hp hEq => h5 (hEq ▸ hp))

/-- Error characterization: when some queried code is absent from the
table index, the first indexed lookup raises `KeyError` listing the
distinct absent codes, and the whole call propagates it. -/
theorem propertiesRun_err_of_missing (tbl : DataFrame) (pdgs : List Int) (props : List String)
    (c : Int) (hc : c ∈ pdgs) (habs : tbl.findRow c = Option.none) :
    propertiesRun tbl pdgs props =
      .error (.keyErrorIds ((npUnique pdgs).1.filter (fun i => (tbl.findRow i).isNone)))
      ∧ c ∈ (npUnique pdgs).1.filter (fun i => (tbl.findRow i).isNone) := by
  have hcu : c ∈ (npUnique pdgs).1 := (mem_npUnique c pdgs).mpr hc
  have hcm : c ∈ (npUnique pdgs).1.filter (fun i => (tbl.findRow i).isNone) := by
    rw [List.mem_filter]
    exact ⟨hcu, by simp [habs]⟩
  have hne : ((npUnique pdgs).1.filter (fun i => (tbl.findRow i).isNone)).isEmpty = false := by
    rcases h : (npUnique pdgs).1.filter (fun i => (tbl.findRow i).isNone) with _ | ⟨x, xs⟩
    · rw [h] at hcm
      simp at hcm
    · rfl
  have hloc : tbl.loc (npUnique pdgs).1 =
      .error (.keyErrorIds ((npUnique pdgs).1.filter (fun i => (tbl.findRow i).isNone))) := by
    simp [DataFrame.loc, hne]
  refine ⟨?_, hcm⟩
  simp only [propertiesRun, hloc]

theorem warned_iff (tbl : DataFrame) (pdgs : List Int) (props : List String) :
    (((npUnique pdgs).1.any (fun c => (tbl.cell c "pythia").truthy))
       && !(props.all (fun p => validPythia.contains p))) = true
      ↔ ((∃ c ∈ pdgs, (tbl.cell c "pythia").truthy = true) ∧
         ∃ p ∈ props, p ∉ validPythia) := by
  rw [Bool.and_eq_true, List.any_eq_true, Bool.not_eq_true']
  constructor
  · rintro ⟨⟨c, hcu, hcf⟩, hall⟩
    refine ⟨⟨c, (mem_npUnique c pdgs).mp hcu, hcf⟩, ?_⟩
    by_contra hno
    push_neg at hno
    have hx : props.all (fun p => validPythia.contains p) = true := by
      rw [List.all_eq_true]
      intro p hp
      simpa using hno p hp
    rw [hx] at hall
    cases hall
  · rintro ⟨⟨c, hcp, hcf⟩, ⟨p, hpp, hpv⟩⟩
    refine ⟨⟨c, (mem_npUnique c pdgs).mpr hcp, hcf⟩, ?_⟩
    by_contra hne
    have hx : props.all (fun p => validPythia.contains p) = true := by
      cases h : props.all (fun p => validPythia.contains p)
      · exact absurd h hne
      · rfl
    rw [List.all_eq_true] at hx
    have hz := hx p hpp
    simp at hz
    exact hpv hz

/-- Claim C1: for every sequence of codes present in the table and every
well-formed property list, row `i` of `properties(codes, props)` is the
table record of `codes[i]` projected to `props` — the deduplicated query
result is re-expanded to the original input positions through the inverse
mapping, so repeated codes (e.g. `[c1, c2, c1]`) produce equal rows, each
equal to the single-code lookup of that code. -/
theorem properties_reexpands_rows (tbl : DataFrame) (pdgs : List Int)
    (props : List String) (hv : validQuery tbl pdgs props) :
    ∃ out : QueryOut, ∃ n : Nat,
      propertiesRun tbl pdgs props = .ok (out, n) ∧
      out.result.recs = pdgs.map (fun c => props.map (fun p => tbl.cell c p)) :=
  ⟨_, _, propertiesRun_eq_of_valid tbl pdgs props hv, rfl⟩

theorem properties_reexpands_rows_witness :
    validQuery sampleTable [22, 11, 22] ["name", "charge"] ∧
      (∃ out : QueryOut, ∃ n : Nat,
        propertiesRun sampleTable [22, 11, 22] ["name", "charge"] = .ok (out, n) ∧
        out.result.recs =
          [(22 : Int), 11, 22].map
            (fun c => ["name", "charge"].map (fun p => sampleTable.cell c p))) :=
  ⟨by decide,
   properties_reexpands_rows sampleTable [22, 11, 22] ["name", "charge"] (by decide)⟩

/-- Claim C2: for every sequence of valid codes (length ≥ 0, repeats
allowed) and well-formed property list, `properties(codes, props)` has
exactly as many rows as `codes` has entries. -/
theorem properties_result_length (tbl : DataFrame) (pdgs : List Int)
    (props : List String) (hv : validQuery tbl pdgs props) :
    ∃ out : QueryOut, ∃ n : Nat,
      propertiesRun tbl pdgs props = .ok (out, n) ∧
      out.result.recs.length = pdgs.length := by
  refine ⟨_, _, propertiesRun_eq_of_valid tbl pdgs props hv, ?_⟩
  simp

theorem properties_result_length_witness :
    validQuery sampleTable [990, 22, 990, 11] ["name"] ∧
      (∃ out : QueryOut, ∃ n : Nat,
        propertiesRun sampleTable [990, 22, 990, 11] ["name"] = .ok (out, n) ∧
        out.result.recs.length = [(990 : Int), 22, 990, 11].length) :=
  ⟨by decide,
   properties_result_length sampleTable [990, 22, 990, 11] ["name"] (by decide)⟩

/-- Claim C3 (behaviour at the failing input): contrary to the claim and
to the function's own docstring ("other edge cases will raise a
ValueError"), `frac` on an unparseable string other than `""` and `"?"`
does not raise: the `except ValueError` handler falls through both
sentinel branches and the function silently returns Python `None`, in
both float and object mode. -/
theorem frac_unparseable_silently_none :
    frac "abc" false = .ok .pyNone ∧ frac "abc" true = .ok .pyNone := by decide

/-- Claim C4: a query containing a code absent from the table index fails
with the pandas `KeyError` (the spec's `UnknownPdgCode`) raised by the
first `.loc` lookup, the error lists the offending code(s), no result is
produced, and the service state is unchanged. -/
theorem properties_unknown_code_fails (tbl : DataFrame) (pdgs : List Int)
    (props : List String) (c : Int) (hc : c ∈ pdgs)
    (habs : tbl.findRow c = Option.none) :
    ∃ missing : List Int,
      (PdgRecords.mk tbl).properties pdgs props =
        (.error (.keyErrorIds missing), PdgRecords.mk tbl) ∧ c ∈ missing := by
  obtain ⟨he, hm⟩ := propertiesRun_err_of_missing tbl pdgs props c hc habs
  exact ⟨_, by simp [PdgRecords.properties, he], hm⟩

theorem properties_unknown_code_fails_witness :
    (999 : Int) ∈ [(22 : Int), 999] ∧ sampleTable.findRow 999 = Option.none ∧
      (∃ missing : List Int,
        (PdgRecords.mk sampleTable).properties [22, 999] ["name"] =
          (.error (.keyErrorIds missing), PdgRecords.mk sampleTable) ∧
        (999 : Int) ∈ missing) :=
  ⟨by decide, by decide,
   properties_unknown_code_fails sampleTable [22, 999] ["name"] 999 (by decide) (by decide)⟩

/-- Claim C5: a well-formed query emits the data-quality warning exactly
when some matched record carries the fallback (`pythia`) flag and some
requested property lies outside `{name, charge, mass, width}`; in every
case the query still completes with a full-shape result. -/
theorem properties_fallback_warning_iff (tbl : DataFrame) (pdgs : List Int)
    (props : List String) (hv : validQuery tbl pdgs props) :
    ∃ out : QueryOut, ∃ n : Nat,
      propertiesRun tbl pdgs props = .ok (out, n) ∧
      (out.warned = true ↔
        ((∃ c ∈ pdgs, (tbl.cell c "pythia").truthy = true) ∧
         ∃ p ∈ props, p ∉ validPythia)) ∧
      out.result.recs.length = pdgs.length := by
  refine ⟨_, _, propertiesRun_eq_of_valid tbl pdgs props hv, ?_, by simp⟩
  exact warned_iff tbl pdgs props

theorem properties_fallback_warning_iff_witness :
    validQuery sampleTable [990] ["quarks"] ∧
      (∃ out : QueryOut, ∃ n : Nat,
        propertiesRun sampleTable [990] ["quarks"] = .ok (out, n) ∧
        (out.warned = true ↔
          ((∃ c ∈ [(990 : Int)], (sampleTable.cell c "pythia").truthy = true) ∧
           ∃ p ∈ ["quarks"], p ∉ validPythia)) ∧
        out.result.recs.length = [(990 : Int)].length) :=
  ⟨by decide, properties_fallback_warning_iff sampleTable [990] ["quarks"] (by decide)⟩

/-- Claim C6, counterexample: a duplicated property name does not survive
to the output — `to_records` builds a numpy dtype, which rejects repeated
field names, so the query raises `ValueError` instead of succeeding. -/
theorem properties_duplicate_props_error :
    propertiesRun sampleTable [22] ["name", "name"] = .error .valueError := by decide

/-- Claim C6, amended: for a duplicate-free property list (not containing
the index name `id`), the result has exactly one column per entry of
`props`, in the caller's requested order; a `props` list containing
duplicates instead makes the query fail with a `ValueError` when the
record array is constructed. -/
theorem properties_columns_requested_order (tbl : DataFrame) (pdgs : List Int)
    (props : List String) (hv : validQuery tbl pdgs props) :
    ∃ out : QueryOut, ∃ n : Nat,
      propertiesRun tbl pdgs props = .ok (out, n) ∧
      out.result.fields = props := by
  refine ⟨_, _, propertiesRun_eq_of_valid tbl pdgs props hv, rfl⟩

theorem properties_columns_requested_order_witness :
    validQuery sampleTable [11] ["charge", "name"] ∧
      (∃ out : QueryOut, ∃ n : Nat,
        propertiesRun sampleTable [11] ["charge", "name"] = .ok (out, n) ∧
        out.result.fields = ["charge", "name"]) :=
  ⟨by decide,
   properties_columns_requested_order sampleTable [11] ["charge", "name"] (by decide)⟩

/-- Claim C7: the sentinel behaviour of `frac` — `"1/2"` parses to the
rational one half, the empty string yields zero (rational `0/1` in exact
mode, `0.0` in float mode, not an error), and `"?"` yields the
not-a-number missing-value marker in both modes. -/
theorem frac_sentinel_values :
    frac "1/2" false = .ok (.floatVal (mkRat 1 2)) ∧
    frac "1/2" true = .ok (.fracVal (mkRat 1 2)) ∧
    frac "" false = .ok (.floatVal 0) ∧
    frac "" true = .ok (.fracVal 0) ∧
    frac "?" false = .ok .nan ∧
    frac "?" true = .ok .nan := by decide

/-- Claim C8: `properties` never mutates the table held by the service —
the state out equals the state in — and an identical repeated call on the
resulting state returns the identical result. -/
theorem properties_no_state_mutation (s : PdgRecords) (pdgs : List Int)
    (props : List String) :
    (s.properties pdgs props).2 = s ∧
      (s.properties pdgs props).1 =
        (((s.properties pdgs props).2).properties pdgs props).1 :=
  ⟨rfl, rfl⟩

/-- Claim C9, counterexample: a concrete well-formed query performs two
indexed `.loc` lookup passes against the table (lines 109 and 122 of the
source), not one as claimed. -/
theorem properties_not_single_lookup_pass :
    propertiesRun sampleTable [22, 22, 22] ["name"] =
      .ok (⟨false, ⟨["name"], [[.str "gamma"], [.str "gamma"], [.str "gamma"]]⟩⟩, 2) ∧
    (2 : Nat) ≠ 1 := by decide

/-- Claim C9, amended: every well-formed query performs exactly two
indexed lookup passes of the distinct codes against the table (one for
the fallback-flag check, one for the projection) — a count independent of
the length and repetition of the input, never once per input element. -/
theorem properties_two_lookup_passes (tbl : DataFrame) (pdgs : List Int)
    (props : List String) (hv : validQuery tbl pdgs props) :
    ∃ out : QueryOut, propertiesRun tbl pdgs props = .ok (out, 2) :=
  ⟨_, propertiesRun_eq_of_valid tbl pdgs props hv⟩

theorem properties_two_lookup_passes_witness :
    validQuery sampleTable [22, 22] ["mass"] ∧
      ∃ out : QueryOut, propertiesRun sampleTable [22, 22] ["mass"] = .ok (out, 2) :=
  ⟨by decide, properties_two_lookup_passes sampleTable [22, 22] ["mass"] (by decide)⟩

/-- Claim C10: a zero-denominator input such as `"1/0"` makes `frac`
raise an uncaught `ZeroDivisionError` in both modes — the
`except ValueError` handler does not catch it, so it is converted neither
to the missing-value marker, nor to zero, nor to the documented
parse-failure error. -/
theorem frac_zero_denominator_uncaught :
    frac "1/0" false = .error .zeroDivisionError ∧
    frac "1/0" true = .error .zeroDivisionError ∧
    PyErr.zeroDivisionError ≠ PyErr.valueError := by decide
